import Mathlib

/-!
Verification of the hybrid search and multi-tier caching engine of the
lamma-api repository.  The embedding follows the source files:

* `src/services/creator-cache.ts`  — tiered snapshot cache (`getCachedCreators`,
  `filterCreators`, `invalidateCache`);
* `src/services/keyword-search.ts` — Fuse.js keyword index with a Redis-persisted
  full index and an LRU cache of filtered sub-indices (`makeFilterKey`,
  `evictFilteredLRU`, `getOrBuildFullIndex`, `keywordSearchCached`,
  legacy `keywordSearch`);
* the hybrid search route (`searchRouter.post` merging semantic and keyword
  scores, and `searchRouter.get` resolving similar creators).

External collaborators (Firestore, Upstash Redis, the Voyage embedder and the
Fuse.js library) are modelled as explicit parameters: the document store is a
list of documents, a Redis read is the outcome value it would produce, the
fuzzy library is a function from an indexed document list and a query to scored
matches.  Numbers are embedded as rationals, timestamps as naturals (ms).
Reference identity of snapshots (used by the code for cache invalidation) is
modelled by a monotone version counter carried next to the data, exactly as the
spec's design notes prescribe for value-type implementations.  I/O performed by
an operation is recorded in an explicit effect trace.
-/

set_option autoImplicit false

namespace LammaApi

/-! ### JavaScript `Map` model

The services use JS `Map`s, whose iteration order is insertion order and whose
`set` on an existing key updates the value in place without moving the key.
We model a `Map` as an association list with exactly those semantics. -/

abbrev JsMap (α : Type) := List (String × α)

/-- `Map.get`. -/
def mget {α : Type} : JsMap α → String → Option α
  | [], _ => none
  | (k, v) :: rest, key => if k = key then some v else mget rest key

/-- `Map.set`: update in place if the key exists, else append. -/
def mset {α : Type} : JsMap α → String → α → JsMap α
  | [], key, v => [(key, v)]
  | (k, w) :: rest, key, v =>
      if k = key then (key, v) :: rest else (k, w) :: mset rest key v

/-- `Map.delete`: remove the key (JS maps hold each key at most once). -/
def mdelete {α : Type} : JsMap α → String → JsMap α
  | [], _ => []
  | (k, w) :: rest, key => if k = key then rest else (k, w) :: mdelete rest key

/-- The keys of a map, in iteration order. -/
def mkeys {α : Type} (m : JsMap α) : List String := m.map Prod.fst

/-- `new Set([...xs])` keeps the first occurrence of each element. -/
def dedupAux : List String → List String → List String
  | [], _ => []
  | x :: rest, seen =>
      if x ∈ seen then dedupAux rest seen else x :: dedupAux rest (x :: seen)

/-- `new Set([...xs])`, in iteration order. -/
def dedup (l : List String) : List String := dedupAux l []

/-! ### Data model (`creator-cache.ts`, route documents) -/

/-- Nested profile object of a creator record. -/
structure Profile where
  displayName : Option String
  shortBio : Option String
  bio : Option String
deriving DecidableEq

/-- One entry of the `precomputed_similar` field on a creator document. -/
structure PreEntry where
  id : String
  score : ℚ
  slug : String
  name : String
deriving DecidableEq

/-- A creator document as stored in the document store (Firestore).  The
`embedding` is the optional vector field, `precomputed_similar` the optional
similarity write-back field; both are stripped before data leaves the engine. -/
structure Doc where
  id : String
  name : String
  slug : String
  categories : List String
  category : Option String
  topics : List String
  region : Option String
  languages : List String
  gender : Option String
  is_published : Bool
  profile : Option Profile
  embedding : Option (List ℚ)
  precomputed_similar : Option (List PreEntry)
deriving DecidableEq

/-- The lightweight projection kept in the creator cache (`CachedCreator`). -/
structure CachedCreator where
  id : String
  name : String
  slug : String
  categories : List String
  category : Option String
  topics : List String
  region : Option String
  languages : List String
  gender : Option String
  is_published : Bool
  profile : Option Profile
deriving DecidableEq

/-- Search filters.  The TypeScript code treats a missing field and the empty
string identically (both are falsy in every use site: `filters.category || ''`,
truthiness tests, `where` guards), so a filter field is a `String` with `""`
meaning "unset". -/
structure Filters where
  category : String
  region : String
  language : String
  gender : String
deriving DecidableEq

/-- The unset filter tuple. -/
def noFilters : Filters := ⟨"", "", "", ""⟩

/-- A snapshot of the cached creator list.  `ver` models JavaScript reference
identity: the code never mutates a cached array and replaces it wholesale, and
compares arrays with `===`; a fresh array (fresh reference) gets a fresh
version number. -/
structure Snapshot where
  ver : ℕ
  creators : List CachedCreator
deriving DecidableEq

/-- Effects (I/O) traced by the embedded operations. -/
inductive Eff where
  | storeQuery (lim : Option ℕ)
  | storeDoc (id : String)
  | storeUpdate (id : String)
  | knnQuery (lim : ℕ)
  | redisGet
  | redisSet
  | redisDel
  | embedCall
deriving DecidableEq

/-! ### `creator-cache.ts` -/

/-- `CACHE_TTL_SECONDS = 300`. -/
def CACHE_TTL_SECONDS : ℕ := 300

/-- Projection applied by `loadFromFirestore` to each published document. -/
def projectCreator (d : Doc) : CachedCreator :=
  { id := d.id, name := d.name, slug := d.slug, categories := d.categories,
    category := d.category, topics := d.topics, region := d.region,
    languages := d.languages, gender := d.gender, is_published := true,
    profile := d.profile }

/-- `loadFromFirestore`: all published creators, lightweight fields only. -/
def loadFromFirestore (store : List Doc) : List CachedCreator :=
  (store.filter (fun d => d.is_published)).map projectCreator

/-- Module-level mutable state of `creator-cache.ts` (`memCache`,
`memCacheTime`), plus the fresh-reference counter for snapshots. -/
structure CacheState where
  memCache : Option Snapshot
  memCacheTime : ℕ
  nextVer : ℕ
deriving DecidableEq

/-- Cold-start module state. -/
def initCacheState : CacheState := ⟨none, 0, 0⟩

/-- Outcome of a Redis `get` of the creator list: `none` when Redis is not
configured, otherwise the read result (which may itself fail). -/
abbrev RedisSnapshotRead := Option (Except String (Option (List CachedCreator)))

/-- Tier 3 of `getCachedCreators`: query Firestore, adopt the result, and
(fire-and-forget) write it through to Redis when Redis is configured.  `wOut`
is the outcome of that write; the code catches a rejection and only logs it,
so the returned value and state do not depend on `wOut`. -/
def cacheLoadTier (st : CacheState) (now : ℕ) (store : List Doc)
    (redisPresent : Bool) (_wOut : Except String Unit) (tr : List Eff) :
    Snapshot × CacheState × List Eff :=
  let creators := loadFromFirestore store
  let snap : Snapshot := ⟨st.nextVer, creators⟩
  (snap, ⟨some snap, now, st.nextVer + 1⟩,
    tr ++ [Eff.storeQuery none] ++ (if redisPresent then [Eff.redisSet] else []))

/-- Tiers 2–3 of `getCachedCreators` (the in-memory tier missed). -/
def cacheColdPath (st : CacheState) (now : ℕ) (redisRead : RedisSnapshotRead)
    (store : List Doc) (wOut : Except String Unit) :
    Snapshot × CacheState × List Eff :=
  match redisRead with
  | some (Except.ok (some cached)) =>
      if cached.length > 0 then
        -- Adopt the Redis value: a freshly parsed array, hence a fresh reference.
        let snap : Snapshot := ⟨st.nextVer, cached⟩
        (snap, ⟨some snap, now, st.nextVer + 1⟩, [Eff.redisGet])
      else
        cacheLoadTier st now store true wOut [Eff.redisGet]
  | some (Except.ok none) => cacheLoadTier st now store true wOut [Eff.redisGet]
  | some (Except.error _) =>
      -- Read failure is caught, logged, and falls through to Firestore.
      cacheLoadTier st now store true wOut [Eff.redisGet]
  | none => cacheLoadTier st now store false wOut []

/-- `getCachedCreators`: in-memory tier within TTL, else Redis, else Firestore. -/
def getCachedCreators (st : CacheState) (now : ℕ) (redisRead : RedisSnapshotRead)
    (store : List Doc) (wOut : Except String Unit) :
    Snapshot × CacheState × List Eff :=
  match st.memCache with
  | some snap =>
      if now - st.memCacheTime < CACHE_TTL_SECONDS * 1000 then (snap, st, [])
      else cacheColdPath st now redisRead store wOut
  | none => cacheColdPath st now redisRead store wOut

/-- `filterCreators`: conjunctive equality / array-membership predicates. -/
def filterCreators (creators : List CachedCreator) (f : Filters) :
    List CachedCreator :=
  let r0 := creators
  let r1 := if f.category ≠ "" then r0.filter (fun c => f.category ∈ c.categories) else r0
  let r2 := if f.region ≠ "" then r1.filter (fun c => c.region = some f.region) else r1
  let r3 := if f.language ≠ "" then r2.filter (fun c => f.language ∈ c.languages) else r2
  if f.gender ≠ "" then r3.filter (fun c => c.gender = some f.gender) else r3

/-- `invalidateCache`: clear both tiers (best effort on Redis). -/
def invalidateCache (st : CacheState) (redisPresent : Bool) :
    CacheState × List Eff :=
  (⟨none, 0, st.nextVer⟩, if redisPresent then [Eff.redisDel] else [])

/-! ### `keyword-search.ts`

The Fuse.js library is an external collaborator.  A built index is identified
by the document list it was built over; the library's search behaviour is a
parameter `fuse : List CachedCreator → String → List (CachedCreator × Option ℚ)`
returning matched items with their optional fuzzy distance (`r.item`,
`r.score`).  An index restored from its serialised form
(`new Fuse(creators, fuseOptions, parsedIndex)`) holds the same `creators`
list, so it is the same index value in this model. -/

/-- A Fuse index: the collection it serves. -/
structure FuseIdx where
  docs : List CachedCreator
deriving DecidableEq

/-- Search behaviour of the Fuse library (external collaborator): matched
items in result order, each with its optional fuzzy distance. -/
abbrev FuseFn := List CachedCreator → String → List (CachedCreator × Option ℚ)

/-- One scored result of `keywordSearchCached`. -/
structure KwRes where
  id : String
  score : ℚ
  creator : CachedCreator
deriving DecidableEq

/-- `index.search(query).slice(0, limit).map(r => ({id, score: 1 - (r.score || 0), creator}))`. -/
def fuseResults (fuse : FuseFn) (docs : List CachedCreator) (query : String)
    (limit : ℕ) : List KwRes :=
  ((fuse docs query).take limit).map
    (fun r => ⟨r.1.id, 1 - (r.2.getD 0), r.1⟩)

/-- `FILTERED_MAX_ENTRIES = 20`. -/
def FILTERED_MAX_ENTRIES : ℕ := 20

/-- `FILTERED_TTL_MS = 5 * 60 * 1000`. -/
def FILTERED_TTL_MS : ℕ := 5 * 60 * 1000

/-- An entry of the filtered-index LRU cache. -/
structure FilteredCacheEntry where
  index : FuseIdx
  creatorRefVer : ℕ
  timestamp : ℕ
deriving DecidableEq

/-- Module-level mutable state of `keyword-search.ts`: the full index and the
snapshot reference (version) it was built from, plus the filtered-index LRU. -/
structure KwState where
  cachedIndex : Option FuseIdx
  cachedRefVer : Option ℕ
  filteredCache : JsMap FilteredCacheEntry
deriving DecidableEq

/-- Cold-start module state. -/
def initKwState : KwState := ⟨none, none, []⟩

/-- `makeFilterKey`: the four filter values joined by the `|` delimiter. -/
def makeFilterKey (f : Filters) : String :=
  f.category ++ "|" ++ f.region ++ "|" ++ f.language ++ "|" ++ f.gender

/-- `evictFilteredLRU`: while the cache exceeds 20 entries, delete keys in
iteration order (= least-recently-used first). -/
def evictFilteredLRU (m : JsMap FilteredCacheEntry) : JsMap FilteredCacheEntry :=
  if m.length ≤ FILTERED_MAX_ENTRIES then m
  else m.drop (m.length - FILTERED_MAX_ENTRIES)

/-- Truthiness of `filters.category || filters.region || ...`. -/
def hasFilters (f : Filters) : Bool :=
  f.category ≠ "" || f.region ≠ "" || f.language ≠ "" || f.gender ≠ ""

/-- Outcome of the Redis read of the serialised full index: `none` when Redis
is not configured, otherwise the read result — `.ok (some ())` stands for a
well-formed payload (`raw.keys && raw.records`), `.ok none` for a missing or
malformed one. -/
abbrev RedisIdxRead := Option (Except String (Option Unit))

/-- `getOrBuildFullIndex`: reuse the warm index while the snapshot reference
is unchanged; else try restoring from Redis; else build from scratch and
persist (fire-and-forget).  A restore failure is caught inside
`restoreIndexFromRedis` (returning `null`) and falls through to the rebuild. -/
def getOrBuildFullIndex (st : KwState) (snap : Snapshot)
    (redisIdx : RedisIdxRead) : FuseIdx × KwState × List Eff :=
  match st.cachedIndex, st.cachedRefVer with
  | some idx, some v =>
      if v = snap.ver then (idx, st, [])
      else
        match redisIdx with
        | some (Except.ok (some _)) =>
            (⟨snap.creators⟩, ⟨some ⟨snap.creators⟩, some snap.ver, st.filteredCache⟩,
              [Eff.redisGet])
        | some _ =>
            (⟨snap.creators⟩, ⟨some ⟨snap.creators⟩, some snap.ver, st.filteredCache⟩,
              [Eff.redisGet, Eff.redisSet])
        | none =>
            (⟨snap.creators⟩, ⟨some ⟨snap.creators⟩, some snap.ver, st.filteredCache⟩, [])
  | _, _ =>
      match redisIdx with
      | some (Except.ok (some _)) =>
          (⟨snap.creators⟩, ⟨some ⟨snap.creators⟩, some snap.ver, st.filteredCache⟩,
            [Eff.redisGet])
      | some _ =>
          (⟨snap.creators⟩, ⟨some ⟨snap.creators⟩, some snap.ver, st.filteredCache⟩,
            [Eff.redisGet, Eff.redisSet])
      | none =>
          (⟨snap.creators⟩, ⟨some ⟨snap.creators⟩, some snap.ver, st.filteredCache⟩, [])

/-- The filtered branch of `keywordSearchCached`, given the loaded snapshot:
look up the filter key in the LRU cache; on a fresh hit (same snapshot
reference, within TTL) move the entry to most-recently-used and search it;
otherwise filter the snapshot, build and insert a new index, and evict
least-recently-used entries beyond the capacity. -/
def filteredSearch (kst : KwState) (snap : Snapshot) (now : ℕ) (query : String)
    (limit : ℕ) (f : Filters) (fuse : FuseFn) : List KwRes × KwState :=
  let key := makeFilterKey f
  match mget kst.filteredCache key with
  | some cached =>
      if cached.creatorRefVer = snap.ver ∧ now - cached.timestamp < FILTERED_TTL_MS then
        let fc := mset (mdelete kst.filteredCache key) key cached
        (fuseResults fuse cached.index.docs query limit,
         ⟨kst.cachedIndex, kst.cachedRefVer, fc⟩)
      else
        let filtered := filterCreators snap.creators f
        let fc := evictFilteredLRU
          (mset kst.filteredCache key ⟨⟨filtered⟩, snap.ver, now⟩)
        (fuseResults fuse filtered query limit,
         ⟨kst.cachedIndex, kst.cachedRefVer, fc⟩)
  | none =>
      let filtered := filterCreators snap.creators f
      let fc := evictFilteredLRU
        (mset kst.filteredCache key ⟨⟨filtered⟩, snap.ver, now⟩)
      (fuseResults fuse filtered query limit,
       ⟨kst.cachedIndex, kst.cachedRefVer, fc⟩)

/-- `keywordSearchCached`: load the creator cache, then run the filtered or
the full-index search. -/
def keywordSearchCached (cst : CacheState) (kst : KwState) (now : ℕ)
    (query : String) (limit : ℕ) (f : Filters) (redisRead : RedisSnapshotRead)
    (store : List Doc) (wOut : Except String Unit) (redisIdx : RedisIdxRead)
    (fuse : FuseFn) : List KwRes × CacheState × KwState × List Eff :=
  let loaded := getCachedCreators cst now redisRead store wOut
  let snap := loaded.1
  if hasFilters f then
    let res := filteredSearch kst snap now query limit f fuse
    (res.1, loaded.2.1, res.2, loaded.2.2)
  else
    let built := getOrBuildFullIndex kst snap redisIdx
    (fuseResults fuse built.1.docs query limit, loaded.2.1, built.2.1,
     loaded.2.2 ++ built.2.2)

/-! ### Hybrid search route (`searchRouter.post`)

The route's external collaborators: the Voyage embedder outcome `embedRes`,
the document store `store`, the vector-KNN behaviour
`knn : List ℚ → ℕ → Except String (List KnnDoc)` (the `findNearest(...).get()`
call, which may fail), and the Fuse library behaviour over route documents
`fuseD`.  The `try` block covers both the embedder call and the KNN query. -/

/-- Search mode. -/
inductive Mode where
  | semantic
  | keyword
  | hybrid
deriving DecidableEq

/-- A document returned by a `findNearest` query, with its
`distanceResultField` value (`_distance`, absent when the store omits it). -/
structure KnnDoc where
  doc : Doc
  dist : Option ℚ
deriving DecidableEq

/-- `stripEmbedding`: drop the embedding field before data leaves the engine. -/
def stripEmbedding (d : Doc) : Doc := { d with embedding := none }

/-- `extractVector`: `null`/missing gives `null`; a `VectorValue` or a plain
array gives the numeric vector. -/
def extractVector (raw : Option (List ℚ)) : Option (List ℚ) :=
  match raw with
  | none => none
  | some v => some v

/-- The post-filters of the semantic branch: publication flag, category,
region, language, gender (skipped when unset). -/
def semanticPassDoc (f : Filters) (d : Doc) : Bool :=
  d.is_published
    && (f.category = "" || d.categories.contains f.category)
    && (f.region = "" || d.region = some f.region)
    && (f.language = "" || d.languages.contains f.language)
    && (f.gender = "" || d.gender = some f.gender)

/-- The semantic loop body: post-filter each KNN candidate and record
`1 − _distance` (0 when the distance field is absent) and the stripped doc. -/
def semanticFold (docs : List KnnDoc) (f : Filters) : JsMap ℚ × JsMap Doc :=
  docs.foldl
    (fun acc kd =>
      if semanticPassDoc f kd.doc then
        (mset acc.1 kd.doc.id (match kd.dist with | some dv => 1 - dv | none => 0),
         mset acc.2 kd.doc.id (stripEmbedding kd.doc))
      else acc)
    ([], [])

/-- The semantic branch: skipped unless mode is semantic or hybrid; over-fetch
`4×limit` KNN candidates for the query embedding; on an embedder or KNN
failure, rethrow in semantic mode and degrade to empty results in hybrid mode. -/
def semanticBranch (mode : Mode) (embedRes : Except String (List ℚ))
    (knn : List ℚ → ℕ → Except String (List KnnDoc)) (limit : ℕ) (f : Filters) :
    Except String (JsMap ℚ × JsMap Doc × List Eff) :=
  if mode = Mode.semantic ∨ mode = Mode.hybrid then
    match embedRes with
    | Except.ok qv =>
        match knn qv (limit * 4) with
        | Except.ok docs =>
            let p := semanticFold docs f
            Except.ok (p.1, p.2, [Eff.embedCall, Eff.knnQuery (limit * 4)])
        | Except.error e =>
            if mode = Mode.semantic then Except.error e
            else Except.ok ([], [], [Eff.embedCall, Eff.knnQuery (limit * 4)])
    | Except.error e =>
        if mode = Mode.semantic then Except.error e
        else Except.ok ([], [], [Eff.embedCall])
  else Except.ok ([], [], [])

/-- The `select(...)` projection of the keyword branch: the fetched documents
carry only the lightweight fields (no embedding, no similarity field). -/
def selectLight (d : Doc) : Doc :=
  { d with embedding := none, precomputed_similar := none }

/-- The keyword branch's Firestore query: published creators, `where` clauses
for category / region / gender (language is only post-filtered), capped at 50
documents. -/
def keywordStoreQuery (store : List Doc) (f : Filters) : List Doc :=
  ((store.filter (fun d =>
      d.is_published
        && (f.category = "" || d.categories.contains f.category)
        && (f.region = "" || d.region = some f.region)
        && (f.gender = "" || d.gender = some f.gender))).take 50).map selectLight

/-- The keyword branch's candidate list: the store query, then the language
post-filter applied only when category consumed the `array-contains` clause. -/
def keywordCandidates (store : List Doc) (f : Filters) : List Doc :=
  let creators := keywordStoreQuery store f
  if f.language ≠ "" ∧ f.category ≠ "" then
    creators.filter (fun d => d.languages.contains f.language)
  else creators

/-- Fuse behaviour over route documents (external collaborator). -/
abbrev FuseDocFn := List Doc → String → List (Doc × Option ℚ)

/-- Legacy `keywordSearch`: one-off Fuse index over the given documents. -/
def keywordSearch (fuseD : FuseDocFn) (creators : List Doc) (query : String)
    (limit : ℕ) : List (String × ℚ) :=
  ((fuseD creators query).take limit).map (fun r => (r.1.id, 1 - (r.2.getD 0)))

/-- The keyword branch: skipped in semantic-only mode; fetch up to 50
candidate documents directly from the store, keep them for merged-result
building, and score up to `2×limit` of them with the legacy `keywordSearch`. -/
def keywordBranch (mode : Mode) (store : List Doc) (f : Filters)
    (query : String) (limit : ℕ) (fuseD : FuseDocFn) :
    JsMap ℚ × JsMap Doc × List Eff :=
  if mode = Mode.keyword ∨ mode = Mode.hybrid then
    let creators := keywordCandidates store f
    let acm := creators.foldl (fun m c => mset m c.id c) []
    let kw := (keywordSearch fuseD creators query (limit * 2)).foldl
      (fun m r => mset m r.1 r.2) []
    (kw, acm, [Eff.storeQuery (some 50)])
  else ([], [], [])

/-- One merged search result. -/
structure MergedItem where
  id : String
  name : String
  slug : String
  semanticScore : ℚ
  keywordScore : ℚ
  combinedScore : ℚ
  creator : Option Doc
deriving DecidableEq

/-- The merge loop: for each identifier of either path, look up both scores
(0 when missing), combine them per mode, and attach the available record
(semantic doc preferred, else keyword doc), stripped of its embedding. -/
def mergeEntries (mode : Mode) (w : ℚ) (sem : JsMap ℚ) (semDocs : JsMap Doc)
    (kw : JsMap ℚ) (acm : JsMap Doc) : List MergedItem :=
  (dedup (mkeys sem ++ mkeys kw)).map (fun id =>
    let s := (mget sem id).getD 0
    let k := (mget kw id).getD 0
    let cs : ℚ :=
      match mode with
      | Mode.semantic => s
      | Mode.keyword => k
      | Mode.hybrid => w * s + (1 - w) * k
    let creatorData : Option Doc :=
      match mget semDocs id with
      | some d => some d
      | none => mget acm id
    let creator := creatorData.map stripEmbedding
    { id := id,
      name := (match creator with | some c => c.name | none => ""),
      slug := (match creator with | some c => c.slug | none => ""),
      semanticScore := s, keywordScore := k, combinedScore := cs,
      creator := creator })

/-- Stable insertion of an item into a list sorted by descending combined
score: the item goes before the first strictly smaller entry. -/
def insertDesc (x : MergedItem) : List MergedItem → List MergedItem
  | [] => [x]
  | y :: l =>
      if y.combinedScore ≤ x.combinedScore then x :: y :: l
      else y :: insertDesc x l

/-- `merged.sort((a, b) => b.combinedScore - a.combinedScore)`: a stable sort
by descending combined score. -/
def sortByCombined : List MergedItem → List MergedItem
  | [] => []
  | a :: rest => insertDesc a (sortByCombined rest)

/-- The JSON body of a search response. -/
structure SearchResponse where
  results : List MergedItem
  mode : Mode
  resultCount : ℕ
deriving DecidableEq

/-- The hybrid search route: semantic branch (with its failure policy), then
keyword branch, then merge, sort and truncate. -/
def hybridSearchRoute (mode : Mode) (query : String) (limit : ℕ) (w : ℚ)
    (f : Filters) (embedRes : Except String (List ℚ))
    (knn : List ℚ → ℕ → Except String (List KnnDoc)) (store : List Doc)
    (fuseD : FuseDocFn) : Except String (SearchResponse × List Eff) :=
  match semanticBranch mode embedRes knn limit f with
  | Except.error e => Except.error e
  | Except.ok semOut =>
      let kwOut := keywordBranch mode store f query limit fuseD
      let merged := mergeEntries mode w semOut.1 semOut.2.1 kwOut.1 kwOut.2.1
      let results := (sortByCombined merged).take limit
      Except.ok (⟨results, mode, results.length⟩, semOut.2.2 ++ kwOut.2.2)

/-! ### Similar-creators route (`searchRouter.get` on `/similar`) -/

/-- One item of a similar-creators response.  The three stages build
differently shaped objects: precomputed entries (`id, similarity, slug, name,
precomputed`), live-KNN entries (the stripped document spread with
`similarity` and `distance`), and category-fallback entries
(`id, name, slug, similarity`). -/
inductive SimItem where
  | pre (id : String) (similarity : ℚ) (slug : String) (name : String)
  | knn (creator : Doc) (similarity : ℚ) (dist : Option ℚ)
  | cat (id : String) (name : String) (slug : String) (similarity : ℚ)
deriving DecidableEq

/-- The JSON body (plus status) of a similar-creators response. -/
structure SimilarResponse where
  status : ℕ
  results : List SimItem
  fallback : Bool
  precomputedFlag : Bool
deriving DecidableEq

/-- Stage 2 (live vector KNN) and stage 3 (category fallback) of the similar
route, reached when no non-empty precomputed field exists on the source
record.  The trace excludes the initial document read (added by the caller). -/
def similarLateStages (creatorId : String) (limit : ℕ) (store : List Doc)
    (knn : List ℚ → ℕ → List KnnDoc) (creatorData : Doc) :
    SimilarResponse × List Eff :=
  match extractVector creatorData.embedding with
  | some qv =>
      if qv.length > 0 then
        let docs := knn qv ((limit + 1) * 2)
        let similar := ((docs.filter
            (fun kd => kd.doc.id ≠ creatorId && kd.doc.is_published)).take limit).map
          (fun kd => SimItem.knn (stripEmbedding kd.doc)
            (match kd.dist with | some dv => 1 - dv | none => 0) kd.dist)
        (⟨200, similar, false, false⟩,
          [Eff.knnQuery ((limit + 1) * 2)] ++
            (if similar.length > 0 then [Eff.storeUpdate creatorId] else []))
      else
        match creatorData.categories with
        | [] => (⟨200, [], true, false⟩, [])
        | c0 :: _ =>
            let docs := (store.filter
              (fun d => d.is_published && d.categories.contains c0)).take (limit + 1)
            let similar := ((docs.filter (fun d => d.id ≠ creatorId)).take limit).map
              (fun d => SimItem.cat d.id d.name d.slug 0)
            (⟨200, similar, true, false⟩, [Eff.storeQuery (some (limit + 1))])
  | none =>
      match creatorData.categories with
      | [] => (⟨200, [], true, false⟩, [])
      | c0 :: _ =>
          let docs := (store.filter
            (fun d => d.is_published && d.categories.contains c0)).take (limit + 1)
          let similar := ((docs.filter (fun d => d.id ≠ creatorId)).take limit).map
            (fun d => SimItem.cat d.id d.name d.slug 0)
          (⟨200, similar, true, false⟩, [Eff.storeQuery (some (limit + 1))])

/-- The similar-creators route: read the source record; 404 when absent;
return the precomputed field (truncated, `precomputed = true`) when it is a
non-empty array; otherwise run the live-KNN / category-fallback chain. -/
def searchSimilar (creatorId : String) (limit : ℕ) (store : List Doc)
    (knn : List ℚ → ℕ → List KnnDoc) : SimilarResponse × List Eff :=
  match store.find? (fun d => d.id = creatorId) with
  | none => (⟨404, [], false, false⟩, [Eff.storeDoc creatorId])
  | some creatorData =>
      match creatorData.precomputed_similar with
      | some pre =>
          if pre.length > 0 then
            (⟨200, (pre.take limit).map
                (fun r => SimItem.pre r.id r.score r.slug r.name), false, true⟩,
              [Eff.storeDoc creatorId])
          else
            let late := similarLateStages creatorId limit store knn creatorData
            (late.1, Eff.storeDoc creatorId :: late.2)
      | none =>
          let late := similarLateStages creatorId limit store knn creatorData
          (late.1, Eff.storeDoc creatorId :: late.2)

/-! ### Basic lemmas about the embedded collections -/

theorem mget_mset_self {α : Type} (m : JsMap α) (k : String) (v : α) :
    mget (mset m k v) k = some v := by
  induction m with
  | nil => simp [mset, mget]
  | cons p rest ih =>
      by_cases h : p.1 = k
      · simp [mset, h, mget]
      · simp [mset, h, mget, ih]

theorem mset_eq_append {α : Type} (m : JsMap α) (k : String) (v : α)
    (h : k ∉ mkeys m) : mset m k v = m ++ [(k, v)] := by
  induction m with
  | nil => simp [mset]
  | cons p rest ih =>
      obtain ⟨k', v'⟩ := p
      simp only [mkeys, List.map_cons, List.mem_cons, not_or] at h
      rw [mset, if_neg (fun hk => h.1 hk.symm), ih h.2]
      simp

theorem mget_eq_none_iff {α : Type} (m : JsMap α) (k : String) :
    mget m k = none ↔ k ∉ mkeys m := by
  induction m with
  | nil => simp [mget, mkeys]
  | cons p rest ih =>
      obtain ⟨k', v'⟩ := p
      by_cases h : k' = k
      · subst h
        simp [mget, mkeys]
      · rw [mget, if_neg h, ih]
        simp only [mkeys, List.map_cons, List.mem_cons, not_or]
        constructor
        · exact fun hk => ⟨fun he => h he.symm, hk⟩
        · exact fun hk => hk.2

theorem mget_ne_none_iff {α : Type} (m : JsMap α) (k : String) :
    mget m k ≠ none ↔ k ∈ mkeys m := by
  rw [Ne, mget_eq_none_iff]; exact not_not

theorem mkeys_mdelete_not_mem {α : Type} (m : JsMap α) (k : String)
    (h : (mkeys m).Nodup) : k ∉ mkeys (mdelete m k) := by
  induction m with
  | nil => simp [mdelete, mkeys]
  | cons p rest ih =>
      obtain ⟨k', v'⟩ := p
      simp only [mkeys, List.map_cons, List.nodup_cons] at h
      by_cases hp : k' = k
      · subst hp
        rw [mdelete, if_pos rfl]
        intro hk
        exact h.1 (by simpa [mkeys] using hk)
      · rw [mdelete, if_neg hp]
        simp only [mkeys, List.map_cons, List.mem_cons, not_or]
        exact ⟨fun hk => hp hk.symm, ih h.2⟩

theorem mem_dedupAux (x : String) :
    ∀ (l seen : List String), x ∈ dedupAux l seen ↔ x ∈ l ∧ x ∉ seen := by
  intro l
  induction l with
  | nil => intro seen; simp [dedupAux]
  | cons a rest ih =>
      intro seen
      by_cases h : a ∈ seen
      · rw [dedupAux, if_pos h, ih]
        simp only [List.mem_cons]
        constructor
        · rintro ⟨hx, hs⟩; exact ⟨Or.inr hx, hs⟩
        · rintro ⟨hx | hx, hs⟩
          · exact absurd (hx ▸ h) hs
          · exact ⟨hx, hs⟩
      · rw [dedupAux, if_neg h]
        simp only [List.mem_cons, ih, List.mem_cons, not_or]
        constructor
        · rintro (rfl | ⟨hx, hne, hs⟩)
          · exact ⟨Or.inl rfl, h⟩
          · exact ⟨Or.inr hx, hs⟩
        · rintro ⟨rfl | hx, hs⟩
          · exact Or.inl rfl
          · by_cases hxa : x = a
            · exact Or.inl hxa
            · exact Or.inr ⟨hx, hxa, hs⟩

theorem mem_dedup (x : String) (l : List String) : x ∈ dedup l ↔ x ∈ l := by
  rw [dedup, mem_dedupAux]; simp

theorem mem_insertDesc (x y : MergedItem) (l : List MergedItem) :
    x ∈ insertDesc y l ↔ x = y ∨ x ∈ l := by
  induction l with
  | nil => simp [insertDesc]
  | cons a rest ih =>
      rw [insertDesc]
      split
      · simp [List.mem_cons]
      · simp only [List.mem_cons, ih]
        tauto

theorem mem_sortByCombined (x : MergedItem) (l : List MergedItem) :
    x ∈ sortByCombined l ↔ x ∈ l := by
  induction l with
  | nil => simp [sortByCombined]
  | cons a rest ih => rw [sortByCombined, mem_insertDesc, ih]; simp

/-! ### Sample data shared by the concrete instantiations -/

/-- A published creator record with all optional data empty. -/
def blankCreator : CachedCreator :=
  ⟨"", "", "", [], none, [], none, [], none, true, none⟩

/-- A published document with all optional data empty. -/
def blankDoc : Doc :=
  ⟨"", "", "", [], none, [], none, [], none, true, none, none, none⟩

/-- A Fuse behaviour that matches every indexed document with distance 0. -/
def matchAllFuse : FuseFn := fun docs _ => docs.map (fun c => (c, some 0))

/-- A Fuse behaviour over route documents that matches everything. -/
def matchAllFuseDoc : FuseDocFn := fun docs _ => docs.map (fun d => (d, some 0))

/-- Sample creator matching only the filter whose category is the literal
string with the delimiter in it. -/
def demoCreatorA : CachedCreator := { blankCreator with id := "c1", categories := ["a|b"] }

/-- Sample creator matching only the category-a / region-with-delimiter filter. -/
def demoCreatorB : CachedCreator :=
  { blankCreator with id := "c2", categories := ["a"], region := some "b|" }

/-- Sample snapshot holding the two creators above. -/
def demoSnap : Snapshot := ⟨0, [demoCreatorA, demoCreatorB]⟩

/-- Filter tuple whose category value contains the delimiter. -/
def demoFilters1 : Filters := ⟨"a|b", "", "", ""⟩

/-- A different filter tuple producing the same filter key. -/
def demoFilters2 : Filters := ⟨"a", "b|", "", ""⟩

/-- C10: the filter-key derivation is not injective — the two distinct filter
tuples above (the first with a category containing the delimiter) share one
key, their filtered creator sets differ, and after a filtered search under the
first tuple a search under the second tuple is served the cached index built
for the first tuple. -/
theorem filterKeyNotInjective :
    makeFilterKey demoFilters1 = makeFilterKey demoFilters2 ∧
    demoFilters1 ≠ demoFilters2 ∧
    (filterCreators demoSnap.creators demoFilters1).map CachedCreator.id = ["c1"] ∧
    (filterCreators demoSnap.creators demoFilters2).map CachedCreator.id = ["c2"] ∧
    ((filteredSearch
        (filteredSearch initKwState demoSnap 0 "q" 10 demoFilters1 matchAllFuse).2
        demoSnap 0 "q" 10 demoFilters2 matchAllFuse).1.map KwRes.id = ["c1"]) := by
  refine ⟨rfl, by decide, by decide, by decide, by decide⟩

/-! ### Similar-creators claims -/

/-- C4: when the source record carries a non-empty precomputed similarity
field, the response is exactly that field truncated to `limit` (marked
`precomputed = true`), and the request issues no vector-KNN query. -/
theorem similarPrecomputedServed (creatorId : String) (limit : ℕ)
    (store : List Doc) (knn : List ℚ → ℕ → List KnnDoc) (d : Doc)
    (l : List PreEntry)
    (hFind : store.find? (fun x => x.id = creatorId) = some d)
    (hPre : d.precomputed_similar = some l) (hNe : l ≠ []) :
    searchSimilar creatorId limit store knn =
      (⟨200, (l.take limit).map (fun r => SimItem.pre r.id r.score r.slug r.name),
        false, true⟩, [Eff.storeDoc creatorId]) ∧
    ∀ n, Eff.knnQuery n ∉ (searchSimilar creatorId limit store knn).2 := by
  have hlen : l.length > 0 := List.length_pos.mpr hNe
  have hmain : searchSimilar creatorId limit store knn =
      (⟨200, (l.take limit).map (fun r => SimItem.pre r.id r.score r.slug r.name),
        false, true⟩, [Eff.storeDoc creatorId]) := by
    rw [searchSimilar, hFind]
    simp only [hPre]
    rw [if_pos hlen]
  refine ⟨hmain, ?_⟩
  intro n
  rw [hmain]
  simp

/-- C5: when the source record has a non-empty embedding and no non-empty
precomputed field, every returned item is a live-KNN item whose identifier
differs from the source and whose publication flag is true, and at most
`limit` items are returned. -/
theorem similarLiveKnnFiltered (creatorId : String) (limit : ℕ)
    (store : List Doc) (knn : List ℚ → ℕ → List KnnDoc) (d : Doc)
    (qv : List ℚ)
    (hFind : store.find? (fun x => x.id = creatorId) = some d)
    (hPre : d.precomputed_similar = none ∨ d.precomputed_similar = some [])
    (hEmb : extractVector d.embedding = some qv) (hLen : qv.length > 0) :
    (∀ it ∈ (searchSimilar creatorId limit store knn).1.results,
      match it with
      | SimItem.knn c _ _ => c.id ≠ creatorId ∧ c.is_published = true
      | _ => False) ∧
    (searchSimilar creatorId limit store knn).1.results.length ≤ limit ∧
    Eff.knnQuery ((limit + 1) * 2) ∈ (searchSimilar creatorId limit store knn).2 := by
  have hstep : searchSimilar creatorId limit store knn =
      ((similarLateStages creatorId limit store knn d).1,
        Eff.storeDoc creatorId :: (similarLateStages creatorId limit store knn d).2) := by
    rcases hPre with h | h
    · rw [searchSimilar, hFind]
      simp only [h]
    · rw [searchSimilar, hFind]
      simp only [h, List.length_nil, gt_iff_lt, lt_self_iff_false, if_false]
  have hlate : (similarLateStages creatorId limit store knn d).1.results =
      ((((knn qv ((limit + 1) * 2)).filter
          (fun kd => kd.doc.id ≠ creatorId && kd.doc.is_published)).take limit).map
        (fun kd => SimItem.knn (stripEmbedding kd.doc)
          (match kd.dist with | some dv => 1 - dv | none => 0) kd.dist)) := by
    rw [similarLateStages, hEmb]
    simp only [if_pos hLen]
  constructor
  · intro it hit
    rw [hstep] at hit
    rw [hlate] at hit
    simp only [List.mem_map] at hit
    obtain ⟨kd, hkd, rfl⟩ := hit
    have hkd' : kd ∈ (knn qv ((limit + 1) * 2)).filter
        (fun kd => kd.doc.id ≠ creatorId && kd.doc.is_published) :=
      List.mem_of_mem_take hkd
    have hp := List.of_mem_filter hkd'
    simp only [Bool.and_eq_true, decide_eq_true_eq] at hp
    exact ⟨by simpa [stripEmbedding] using hp.1, by simpa [stripEmbedding] using hp.2⟩
  refine ⟨?_, ?_⟩
  · rw [hstep, hlate]
    simp only [List.length_map, List.length_take]
    exact min_le_left _ _
  · rw [hstep]
    have htr : (similarLateStages creatorId limit store knn d).2 =
        [Eff.knnQuery ((limit + 1) * 2)] ++
          (if (((knn qv ((limit + 1) * 2)).filter
              (fun kd => kd.doc.id ≠ creatorId && kd.doc.is_published)).take limit).length > 0
            then [Eff.storeUpdate creatorId] else []) := by
      rw [similarLateStages, hEmb]
      simp only [if_pos hLen, List.length_map]
    rw [htr]
    simp

/-! Concrete instantiations for the similar-creators claims. -/

/-- Sample precomputed-similarity entries. -/
def demoPreList : List PreEntry :=
  [⟨"x1", 95/100, "x-one", "X One"⟩, ⟨"x2", 88/100, "x-two", "X Two"⟩]

/-- Sample source record carrying a precomputed similarity field. -/
def demoPreDoc : Doc := { blankDoc with id := "p1", precomputed_similar := some demoPreList }

/-- A KNN behaviour returning no candidates. -/
def demoKnn0 : List ℚ → ℕ → List KnnDoc := fun _ _ => []

/-- Witness for the precomputed-similarity claim at a concrete request. -/
theorem similarPrecomputedServed_witness :
    searchSimilar "p1" 1 [demoPreDoc] demoKnn0 =
      (⟨200, (demoPreList.take 1).map (fun r => SimItem.pre r.id r.score r.slug r.name),
        false, true⟩, [Eff.storeDoc "p1"]) ∧
    (∀ n, Eff.knnQuery n ∉ (searchSimilar "p1" 1 [demoPreDoc] demoKnn0).2) :=
  similarPrecomputedServed "p1" 1 [demoPreDoc] demoKnn0 demoPreDoc demoPreList
    rfl rfl (by decide)

/-- Sample source record carrying an embedding and no precomputed field. -/
def demoSrcDoc : Doc := { blankDoc with id := "src", embedding := some [1] }

/-- A KNN behaviour returning the source itself, a published candidate, and an
unpublished candidate (the store omits the distance field here). -/
def demoKnnLive : List ℚ → ℕ → List KnnDoc := fun _ _ =>
  [⟨{ blankDoc with id := "src", embedding := some [1] }, none⟩,
   ⟨{ blankDoc with id := "sim1", name := "Similar One" }, none⟩,
   ⟨{ blankDoc with id := "sim2", is_published := false }, none⟩]

/-- Witness for the live-KNN claim at a concrete request. -/
theorem similarLiveKnnFiltered_witness :
    ((match (SimItem.knn { blankDoc with id := "sim1", name := "Similar One" }
        0 none : SimItem) with
      | SimItem.knn c _ _ => c.id ≠ "src" ∧ c.is_published = true
      | _ => False) ∧
     (searchSimilar "src" 8 [demoSrcDoc] demoKnnLive).1.results.length ≤ 8 ∧
     Eff.knnQuery ((8 + 1) * 2) ∈ (searchSimilar "src" 8 [demoSrcDoc] demoKnnLive).2) :=
  ⟨(similarLiveKnnFiltered "src" 8 [demoSrcDoc] demoKnnLive demoSrcDoc [1]
      rfl (Or.inl rfl) rfl (by decide)).1
      (SimItem.knn { blankDoc with id := "sim1", name := "Similar One" } 0 none)
      (by decide),
   (similarLiveKnnFiltered "src" 8 [demoSrcDoc] demoKnnLive demoSrcDoc [1]
      rfl (Or.inl rfl) rfl (by decide)).2⟩

/-! ### Hybrid-search failure policy -/

/-- C6: a semantic-path failure (embedding provider, or the vector-KNN query)
propagates as the request failure in semantic-only mode, while in hybrid mode
the request still succeeds and the semantic path contributes empty result
maps (the response is built from the keyword branch alone). -/
theorem semanticFailurePolicy (query : String) (limit : ℕ) (w : ℚ) (f : Filters)
    (store : List Doc) (fuseD : FuseDocFn) (e : String)
    (knn : List ℚ → ℕ → Except String (List KnnDoc)) (qv : List ℚ) :
    (hybridSearchRoute Mode.semantic query limit w f (Except.error e) knn store fuseD =
      Except.error e) ∧
    (hybridSearchRoute Mode.hybrid query limit w f (Except.error e) knn store fuseD =
      (let kwOut := keywordBranch Mode.hybrid store f query limit fuseD
       let merged := mergeEntries Mode.hybrid w [] [] kwOut.1 kwOut.2.1
       let results := (sortByCombined merged).take limit
       Except.ok (⟨results, Mode.hybrid, results.length⟩,
         [Eff.embedCall] ++ kwOut.2.2))) ∧
    (knn qv (limit * 4) = Except.error e →
      hybridSearchRoute Mode.semantic query limit w f (Except.ok qv) knn store fuseD =
        Except.error e) ∧
    (knn qv (limit * 4) = Except.error e →
      hybridSearchRoute Mode.hybrid query limit w f (Except.ok qv) knn store fuseD =
      (let kwOut := keywordBranch Mode.hybrid store f query limit fuseD
       let merged := mergeEntries Mode.hybrid w [] [] kwOut.1 kwOut.2.1
       let results := (sortByCombined merged).take limit
       Except.ok (⟨results, Mode.hybrid, results.length⟩,
         [Eff.embedCall, Eff.knnQuery (limit * 4)] ++ kwOut.2.2))) := by
  refine ⟨rfl, rfl, fun hk => ?_, fun hk => ?_⟩
  · have hb : semanticBranch Mode.semantic (Except.ok qv) knn limit f =
        Except.error e := by
      simp [semanticBranch, hk]
    unfold hybridSearchRoute
    rw [hb]
  · have hb : semanticBranch Mode.hybrid (Except.ok qv) knn limit f =
        Except.ok ([], [], [Eff.embedCall, Eff.knnQuery (limit * 4)]) := by
      simp [semanticBranch, hk]
    unfold hybridSearchRoute
    rw [hb]

/-- An always-failing KNN behaviour. -/
def demoKnnFail : List ℚ → ℕ → Except String (List KnnDoc) :=
  fun _ _ => Except.error "down"

/-- Witness for the failure-policy claim at a concrete request. -/
theorem semanticFailurePolicy_witness :
    (hybridSearchRoute Mode.semantic "q" 5 1 noFilters (Except.ok [1]) demoKnnFail []
        matchAllFuseDoc = Except.error "down") ∧
    (hybridSearchRoute Mode.hybrid "q" 5 1 noFilters (Except.ok [1]) demoKnnFail []
        matchAllFuseDoc =
      (let kwOut := keywordBranch Mode.hybrid [] noFilters "q" 5 matchAllFuseDoc
       let merged := mergeEntries Mode.hybrid 1 [] [] kwOut.1 kwOut.2.1
       let results := (sortByCombined merged).take 5
       Except.ok (⟨results, Mode.hybrid, results.length⟩,
         [Eff.embedCall, Eff.knnQuery (5 * 4)] ++ kwOut.2.2))) :=
  ⟨(semanticFailurePolicy "q" 5 1 noFilters [] matchAllFuseDoc "down" demoKnnFail
      [1]).2.2.1 rfl,
   (semanticFailurePolicy "q" 5 1 noFilters [] matchAllFuseDoc "down" demoKnnFail
      [1]).2.2.2 rfl⟩

/-! ### Cache-tier failure absorption and snapshot TTL reuse -/

/-- C7: a Redis failure is absorbed locally.  A failing snapshot read leaves
`getCachedCreators` with the same returned snapshot and state as an absent
Redis tier (it falls through to the document store); a failing restore of the
serialised index leaves `getOrBuildFullIndex` with the same index and state as
an absent Redis tier (it rebuilds from scratch); and the outcome of the
fire-and-forget snapshot write-back never influences the call at all. -/
theorem cacheTierFailureAbsorbed (st : CacheState) (now : ℕ) (store : List Doc)
    (w : Except String Unit) (e : String) (kst : KwState) (snap : Snapshot) :
    ((getCachedCreators st now (some (Except.error e)) store w).1 =
        (getCachedCreators st now none store w).1 ∧
      (getCachedCreators st now (some (Except.error e)) store w).2.1 =
        (getCachedCreators st now none store w).2.1) ∧
    ((getOrBuildFullIndex kst snap (some (Except.error e))).1 =
        (getOrBuildFullIndex kst snap none).1 ∧
      (getOrBuildFullIndex kst snap (some (Except.error e))).2.1 =
        (getOrBuildFullIndex kst snap none).2.1) ∧
    (∀ (w1 w2 : Except String Unit) (r : RedisSnapshotRead),
      getCachedCreators st now r store w1 = getCachedCreators st now r store w2) := by
  have hGet : (getCachedCreators st now (some (Except.error e)) store w).1 =
        (getCachedCreators st now none store w).1 ∧
      (getCachedCreators st now (some (Except.error e)) store w).2.1 =
        (getCachedCreators st now none store w).2.1 := by
    cases hm : st.memCache with
    | none => simp [getCachedCreators, hm, cacheColdPath, cacheLoadTier]
    | some s =>
        by_cases h : now - st.memCacheTime < CACHE_TTL_SECONDS * 1000
        · simp [getCachedCreators, hm, h]
        · simp [getCachedCreators, hm, h, cacheColdPath, cacheLoadTier]
  have hIdx : (getOrBuildFullIndex kst snap (some (Except.error e))).1 =
        (getOrBuildFullIndex kst snap none).1 ∧
      (getOrBuildFullIndex kst snap (some (Except.error e))).2.1 =
        (getOrBuildFullIndex kst snap none).2.1 := by
    cases hci : kst.cachedIndex with
    | none => cases hcv : kst.cachedRefVer <;> simp [getOrBuildFullIndex, hci, hcv]
    | some idx =>
        cases hcv : kst.cachedRefVer with
        | none => simp [getOrBuildFullIndex, hci, hcv]
        | some v =>
            by_cases hv : v = snap.ver <;> simp [getOrBuildFullIndex, hci, hcv, hv]
  exact ⟨hGet, hIdx, fun _ _ _ => rfl⟩

/-- After any `getCachedCreators` call, the in-memory tier holds exactly the
returned snapshot. -/
theorem getCachedCreators_memCache_eq (st : CacheState) (now : ℕ)
    (r : RedisSnapshotRead) (store : List Doc) (w : Except String Unit) :
    (getCachedCreators st now r store w).2.1.memCache =
      some (getCachedCreators st now r store w).1 := by
  have hcold : ∀ st' now', (cacheColdPath st' now' r store w).2.1.memCache =
      some (cacheColdPath st' now' r store w).1 := by
    intro st' now'
    rcases r with _ | r
    · simp [cacheColdPath, cacheLoadTier]
    · rcases r with err | oc
      · simp [cacheColdPath, cacheLoadTier]
      · rcases oc with _ | c
        · simp [cacheColdPath, cacheLoadTier]
        · by_cases hl : c.length > 0 <;> simp [cacheColdPath, cacheLoadTier, hl]
  cases hm : st.memCache with
  | none => simpa [getCachedCreators, hm] using hcold st now
  | some s =>
      by_cases h : now - st.memCacheTime < CACHE_TTL_SECONDS * 1000
      · simp [getCachedCreators, hm, h]
      · simpa [getCachedCreators, hm, h] using hcold st now

/-- C8: a second `getCachedCreators` call that happens while the in-memory
snapshot entry is within its TTL returns the very snapshot the first call
returned, leaves the state untouched, and performs no I/O at all. -/
theorem snapshotTtlReuse (st : CacheState) (now1 now2 : ℕ)
    (r1 r2 : RedisSnapshotRead) (store1 store2 : List Doc)
    (w1 w2 : Except String Unit)
    (h : now2 - (getCachedCreators st now1 r1 store1 w1).2.1.memCacheTime <
      CACHE_TTL_SECONDS * 1000) :
    getCachedCreators (getCachedCreators st now1 r1 store1 w1).2.1 now2 r2 store2 w2 =
      ((getCachedCreators st now1 r1 store1 w1).1,
        (getCachedCreators st now1 r1 store1 w1).2.1, []) := by
  have hmc := getCachedCreators_memCache_eq st now1 r1 store1 w1
  generalize hg : getCachedCreators st now1 r1 store1 w1 = out1 at h hmc ⊢
  simp only [getCachedCreators, hmc]
  rw [if_pos h]

/-- Sample store for the snapshot-reuse witness. -/
def demoCacheStore : List Doc := [{ blankDoc with id := "d1", name := "Doc One" }]

/-- Witness for the snapshot TTL reuse claim: a cold load at t=5 followed by a
call at t=100 (well within the 300s TTL) returns the same snapshot with an
empty effect trace. -/
theorem snapshotTtlReuse_witness :
    (100 - (getCachedCreators initCacheState 5 none demoCacheStore
        (Except.ok ())).2.1.memCacheTime < CACHE_TTL_SECONDS * 1000) ∧
    getCachedCreators
        (getCachedCreators initCacheState 5 none demoCacheStore (Except.ok ())).2.1
        100 none demoCacheStore (Except.ok ()) =
      ((getCachedCreators initCacheState 5 none demoCacheStore (Except.ok ())).1,
        (getCachedCreators initCacheState 5 none demoCacheStore (Except.ok ())).2.1,
        []) :=
  ⟨by decide,
   snapshotTtlReuse initCacheState 5 100 none none demoCacheStore demoCacheStore
     (Except.ok ()) (Except.ok ()) (by decide)⟩

/-! ### Merge-loop claims -/

/-- C1: in every search response, each merged entry's recorded semantic and
keyword scores are the per-path scores of its identifier (0 when the path did
not return it), and its combined score is exactly the per-mode blend: the
semantic score alone in semantic mode, the keyword score alone in keyword
mode, and `w·semantic + (1−w)·keyword` in hybrid mode, for any `w ∈ [0, 1]`. -/
theorem searchCombinedScore (mode : Mode) (query : String) (limit : ℕ) (w : ℚ)
    (f : Filters) (embedRes : Except String (List ℚ))
    (knn : List ℚ → ℕ → Except String (List KnnDoc)) (store : List Doc)
    (fuseD : FuseDocFn) (sem : JsMap ℚ) (semDocs : JsMap Doc) (trS : List Eff)
    (resp : SearchResponse) (tr : List Eff)
    (_hw0 : 0 ≤ w) (_hw1 : w ≤ 1)
    (hsem : semanticBranch mode embedRes knn limit f = Except.ok (sem, semDocs, trS))
    (hroute : hybridSearchRoute mode query limit w f embedRes knn store fuseD =
      Except.ok (resp, tr)) :
    ∀ e ∈ resp.results,
      e.semanticScore = (mget sem e.id).getD 0 ∧
      e.keywordScore =
        (mget (keywordBranch mode store f query limit fuseD).1 e.id).getD 0 ∧
      (mode = Mode.semantic → e.combinedScore = e.semanticScore) ∧
      (mode = Mode.keyword → e.combinedScore = e.keywordScore) ∧
      (mode = Mode.hybrid →
        e.combinedScore = w * e.semanticScore + (1 - w) * e.keywordScore) := by
  have hresp : resp.results = (sortByCombined (mergeEntries mode w sem semDocs
      (keywordBranch mode store f query limit fuseD).1
      (keywordBranch mode store f query limit fuseD).2.1)).take limit := by
    unfold hybridSearchRoute at hroute
    rw [hsem] at hroute
    simp only [Except.ok.injEq, Prod.mk.injEq] at hroute
    rw [← hroute.1]
  intro e he
  rw [hresp] at he
  have he2 := (mem_sortByCombined e _).mp (List.mem_of_mem_take he)
  simp only [mergeEntries, List.mem_map] at he2
  obtain ⟨id, hid, rfl⟩ := he2
  refine ⟨rfl, rfl, ?_, ?_, ?_⟩ <;> rintro rfl <;> rfl

/-- C2: the merged result list (before sorting and truncation) holds exactly
the union of the identifiers of the two paths, and an identifier missing from
one path has 0 recorded for that path's score. -/
theorem mergeUnionAndZeroFill (mode : Mode) (w : ℚ) (sem : JsMap ℚ)
    (semDocs : JsMap Doc) (kw : JsMap ℚ) (acm : JsMap Doc) :
    (∀ id, (∃ e ∈ mergeEntries mode w sem semDocs kw acm, e.id = id) ↔
      (id ∈ mkeys sem ∨ id ∈ mkeys kw)) ∧
    (∀ e ∈ mergeEntries mode w sem semDocs kw acm,
      (mget sem e.id = none → e.semanticScore = 0) ∧
      (mget kw e.id = none → e.keywordScore = 0)) := by
  constructor
  · intro id
    constructor
    · rintro ⟨e, he, rfl⟩
      simp only [mergeEntries, List.mem_map] at he
      obtain ⟨id', hid', rfl⟩ := he
      exact List.mem_append.mp ((mem_dedup id' _).mp hid')
    · intro hid
      simp only [mergeEntries, List.mem_map]
      exact ⟨_, ⟨id, (mem_dedup id _).mpr (List.mem_append.mpr hid), rfl⟩, rfl⟩
  · intro e he
    simp only [mergeEntries, List.mem_map] at he
    obtain ⟨id, hid, rfl⟩ := he
    constructor
    · intro h0
      have h0' : mget sem id = none := h0
      show (mget sem id).getD 0 = 0
      rw [h0']
      rfl
    · intro h0
      have h0' : mget kw id = none := h0
      show (mget kw id).getD 0 = 0
      rw [h0']
      rfl

/-! Concrete instantiations for the merge-loop claims. -/

/-- A KNN behaviour returning one published candidate without a distance field. -/
def demoSemKnn : List ℚ → ℕ → Except String (List KnnDoc) :=
  fun _ _ => Except.ok [⟨{ blankDoc with id := "s1", name := "Sem" }, none⟩]

/-- The semantic score map the branch produces for `demoSemKnn`. -/
def demoC1Sem : JsMap ℚ := [("s1", 0)]

/-- The semantic doc map the branch produces for `demoSemKnn`. -/
def demoC1SemDocs : JsMap Doc := [("s1", { blankDoc with id := "s1", name := "Sem" })]

/-- The merged entry the route produces for `demoSemKnn` in semantic mode. -/
def demoC1Entry : MergedItem :=
  ⟨"s1", "Sem", "", 0, 0, 0, some { blankDoc with id := "s1", name := "Sem" }⟩

/-- The response the route produces for `demoSemKnn` in semantic mode. -/
def demoC1Resp : SearchResponse := ⟨[demoC1Entry], Mode.semantic, 1⟩

/-- Witness for the combined-score claim at a concrete semantic-mode request. -/
theorem searchCombinedScore_witness :
    ((0 : ℚ) ≤ 1 ∧ (1 : ℚ) ≤ 1) ∧
    demoC1Entry ∈ demoC1Resp.results ∧
    (demoC1Entry.semanticScore = (mget demoC1Sem demoC1Entry.id).getD 0 ∧
     demoC1Entry.keywordScore =
       (mget (keywordBranch Mode.semantic [] noFilters "q" 10 matchAllFuseDoc).1
         demoC1Entry.id).getD 0 ∧
     (Mode.semantic = Mode.semantic →
       demoC1Entry.combinedScore = demoC1Entry.semanticScore) ∧
     (Mode.semantic = Mode.keyword →
       demoC1Entry.combinedScore = demoC1Entry.keywordScore) ∧
     (Mode.semantic = Mode.hybrid →
       demoC1Entry.combinedScore =
         1 * demoC1Entry.semanticScore + (1 - 1) * demoC1Entry.keywordScore)) :=
  ⟨⟨by norm_num, le_refl 1⟩, by decide,
   searchCombinedScore Mode.semantic "q" 10 1 noFilters (Except.ok [1]) demoSemKnn
     [] matchAllFuseDoc demoC1Sem demoC1SemDocs [Eff.embedCall, Eff.knnQuery 40]
     demoC1Resp [Eff.embedCall, Eff.knnQuery 40] (by norm_num) (le_refl 1) rfl rfl
     demoC1Entry (by decide)⟩

/-- Witness for the merge union / zero-fill claim at concrete score maps. -/
theorem mergeUnionAndZeroFill_witness :
    (∃ e ∈ mergeEntries Mode.semantic 1 [("p", (1 : ℚ))] [] [("r", (1 : ℚ))] [],
      e.id = "p") ∧
    ((⟨"r", "", "", 0, 1, 0, none⟩ : MergedItem).semanticScore = 0) :=
  ⟨((mergeUnionAndZeroFill Mode.semantic 1 [("p", 1)] [] [("r", 1)] []).1 "p").mpr
      (Or.inl (by decide)),
   ((mergeUnionAndZeroFill Mode.semantic 1 [("p", 1)] [] [("r", 1)] []).2
      ⟨"r", "", "", 0, 1, 0, none⟩ (by decide)).1 (by decide)⟩

/-! ### Filtered-index LRU claims -/

theorem length_mset_le {α : Type} (m : JsMap α) (k : String) (v : α) :
    (mset m k v).length ≤ m.length + 1 := by
  induction m with
  | nil => simp [mset]
  | cons p rest ih =>
      obtain ⟨k', w⟩ := p
      by_cases h : k' = k
      · simp [mset, h]
      · simpa [mset, h] using ih

theorem length_mdelete_of_get {α : Type} (m : JsMap α) (k : String) (v : α)
    (h : mget m k = some v) : m.length = (mdelete m k).length + 1 := by
  induction m with
  | nil => simp [mget] at h
  | cons p rest ih =>
      obtain ⟨k', w⟩ := p
      by_cases hk : k' = k
      · simp [mdelete, hk]
      · rw [mget, if_neg hk] at h
        simpa [mdelete, hk] using ih h

theorem length_evictFilteredLRU (m : JsMap FilteredCacheEntry) :
    (evictFilteredLRU m).length ≤ FILTERED_MAX_ENTRIES := by
  rw [evictFilteredLRU]
  split
  · assumption
  · simp only [List.length_drop]
    omega

/-- Branch equation: a filtered search missing the cache builds and inserts a
new index and evicts beyond capacity. -/
theorem filteredSearch_cache_miss (kst : KwState) (snap : Snapshot) (now : ℕ)
    (query : String) (limit : ℕ) (f : Filters) (fuse : FuseFn)
    (hget : mget kst.filteredCache (makeFilterKey f) = none) :
    filteredSearch kst snap now query limit f fuse =
      (fuseResults fuse (filterCreators snap.creators f) query limit,
       ⟨kst.cachedIndex, kst.cachedRefVer,
        evictFilteredLRU (mset kst.filteredCache (makeFilterKey f)
          ⟨⟨filterCreators snap.creators f⟩, snap.ver, now⟩)⟩) := by
  simp only [filteredSearch, hget]

/-- Branch equation: a fresh cache hit is served from the cached index, moved
to the most-recently-used end. -/
theorem filteredSearch_cache_hit (kst : KwState) (snap : Snapshot) (now : ℕ)
    (query : String) (limit : ℕ) (f : Filters) (fuse : FuseFn)
    (cached : FilteredCacheEntry)
    (hget : mget kst.filteredCache (makeFilterKey f) = some cached)
    (hcond : cached.creatorRefVer = snap.ver ∧ now - cached.timestamp < FILTERED_TTL_MS) :
    filteredSearch kst snap now query limit f fuse =
      (fuseResults fuse cached.index.docs query limit,
       ⟨kst.cachedIndex, kst.cachedRefVer,
        mset (mdelete kst.filteredCache (makeFilterKey f)) (makeFilterKey f) cached⟩) := by
  simp only [filteredSearch, hget]
  rw [if_pos hcond]

/-- Branch equation: a stale cache hit (snapshot changed or TTL expired)
rebuilds like a miss. -/
theorem filteredSearch_cache_stale (kst : KwState) (snap : Snapshot) (now : ℕ)
    (query : String) (limit : ℕ) (f : Filters) (fuse : FuseFn)
    (cached : FilteredCacheEntry)
    (hget : mget kst.filteredCache (makeFilterKey f) = some cached)
    (hcond : ¬(cached.creatorRefVer = snap.ver ∧ now - cached.timestamp < FILTERED_TTL_MS)) :
    filteredSearch kst snap now query limit f fuse =
      (fuseResults fuse (filterCreators snap.creators f) query limit,
       ⟨kst.cachedIndex, kst.cachedRefVer,
        evictFilteredLRU (mset kst.filteredCache (makeFilterKey f)
          ⟨⟨filterCreators snap.creators f⟩, snap.ver, now⟩)⟩) := by
  simp only [filteredSearch, hget]
  rw [if_neg hcond]

/-- C9: the filtered-index LRU.  (a) A filtered search never leaves the cache
above its 20-entry capacity; (b) when the cache is full and a new distinct
filter key arrives, exactly the first (least-recently-used) entry is evicted
and the new key lands at the most-recently-used end; (c) a fresh cache hit
moves its key to the most-recently-used end. -/
theorem filteredLruPolicy :
    (∀ (kst : KwState) (snap : Snapshot) (now : ℕ) (query : String) (limit : ℕ)
        (f : Filters) (fuse : FuseFn),
      kst.filteredCache.length ≤ FILTERED_MAX_ENTRIES →
      (filteredSearch kst snap now query limit f fuse).2.filteredCache.length ≤
        FILTERED_MAX_ENTRIES) ∧
    (∀ (kst : KwState) (snap : Snapshot) (now : ℕ) (query : String) (limit : ℕ)
        (f : Filters) (fuse : FuseFn),
      kst.filteredCache.length = FILTERED_MAX_ENTRIES →
      mget kst.filteredCache (makeFilterKey f) = none →
      mkeys (filteredSearch kst snap now query limit f fuse).2.filteredCache =
        (mkeys kst.filteredCache).tail ++ [makeFilterKey f]) ∧
    (∀ (kst : KwState) (snap : Snapshot) (now : ℕ) (query : String) (limit : ℕ)
        (f : Filters) (fuse : FuseFn) (cached : FilteredCacheEntry),
      (mkeys kst.filteredCache).Nodup →
      mget kst.filteredCache (makeFilterKey f) = some cached →
      cached.creatorRefVer = snap.ver →
      now - cached.timestamp < FILTERED_TTL_MS →
      (filteredSearch kst snap now query limit f fuse).2.filteredCache =
        mdelete kst.filteredCache (makeFilterKey f) ++ [(makeFilterKey f, cached)]) := by
  refine ⟨?_, ?_, ?_⟩
  · intro kst snap now query limit f fuse hlen
    rcases hget : mget kst.filteredCache (makeFilterKey f) with _ | cached
    · rw [filteredSearch_cache_miss kst snap now query limit f fuse hget]
      exact length_evictFilteredLRU _
    · by_cases hcond : cached.creatorRefVer = snap.ver ∧
          now - cached.timestamp < FILTERED_TTL_MS
      · rw [filteredSearch_cache_hit kst snap now query limit f fuse cached hget hcond]
        show (mset (mdelete kst.filteredCache (makeFilterKey f))
            (makeFilterKey f) cached).length ≤ FILTERED_MAX_ENTRIES
        calc (mset (mdelete kst.filteredCache (makeFilterKey f))
              (makeFilterKey f) cached).length
            ≤ (mdelete kst.filteredCache (makeFilterKey f)).length + 1 :=
              length_mset_le _ _ _
          _ = kst.filteredCache.length :=
              (length_mdelete_of_get _ _ _ hget).symm
          _ ≤ FILTERED_MAX_ENTRIES := hlen
      · rw [filteredSearch_cache_stale kst snap now query limit f fuse cached hget hcond]
        exact length_evictFilteredLRU _
  · intro kst snap now query limit f fuse hlen hget
    rw [filteredSearch_cache_miss kst snap now query limit f fuse hget]
    show mkeys (evictFilteredLRU (mset kst.filteredCache (makeFilterKey f)
        ⟨⟨filterCreators snap.creators f⟩, snap.ver, now⟩)) =
      (mkeys kst.filteredCache).tail ++ [makeFilterKey f]
    rw [mset_eq_append _ _ _ ((mget_eq_none_iff _ _).mp hget)]
    have h21 : (kst.filteredCache ++
        [(makeFilterKey f, (⟨⟨filterCreators snap.creators f⟩, snap.ver, now⟩ :
          FilteredCacheEntry))]).length = FILTERED_MAX_ENTRIES + 1 := by
      simp [hlen]
    rw [evictFilteredLRU, if_neg (by omega), h21]
    have h1 : FILTERED_MAX_ENTRIES + 1 - FILTERED_MAX_ENTRIES = 1 := by omega
    rw [h1]
    cases hc : kst.filteredCache with
    | nil => rw [hc] at hlen; simp [FILTERED_MAX_ENTRIES] at hlen
    | cons p rest => simp [mkeys]
  · intro kst snap now query limit f fuse cached hnd hget hver httl
    rw [filteredSearch_cache_hit kst snap now query limit f fuse cached hget ⟨hver, httl⟩]
    exact mset_eq_append _ _ _ (mkeys_mdelete_not_mem _ _ hnd)

/-- An entry for populating concrete filtered caches. -/
def demoEntry : FilteredCacheEntry := ⟨⟨[]⟩, 0, 0⟩

/-- A full (20-entry) filtered cache with keys distinct from the demo filter
keys. -/
def demoFullCache : JsMap FilteredCacheEntry :=
  (List.range 20).map (fun i => ("k" ++ Nat.repr i, demoEntry))

/-- A module state holding the full cache. -/
def demoFullKwState : KwState := ⟨none, none, demoFullCache⟩

/-- A module state holding one fresh entry under the demo filter key. -/
def demoHitKwState : KwState := ⟨none, none, [(makeFilterKey demoFilters1, demoEntry)]⟩

/-- Witness for the LRU policy at concrete cache states: the capacity bound
after an insertion into a full cache, the eviction of exactly the first key on
a 21st distinct insert, and the move-to-end of a fresh hit. -/
theorem filteredLruPolicy_witness :
    ((filteredSearch demoFullKwState demoSnap 0 "q" 10 demoFilters1
        matchAllFuse).2.filteredCache.length ≤ FILTERED_MAX_ENTRIES) ∧
    (mkeys (filteredSearch demoFullKwState demoSnap 0 "q" 10 demoFilters1
        matchAllFuse).2.filteredCache =
      (mkeys demoFullCache).tail ++ [makeFilterKey demoFilters1]) ∧
    ((filteredSearch demoHitKwState demoSnap 0 "q" 10 demoFilters1
        matchAllFuse).2.filteredCache =
      mdelete demoHitKwState.filteredCache (makeFilterKey demoFilters1) ++
        [(makeFilterKey demoFilters1, demoEntry)]) :=
  ⟨filteredLruPolicy.1 demoFullKwState demoSnap 0 "q" 10 demoFilters1 matchAllFuse
      (by decide),
   filteredLruPolicy.2.1 demoFullKwState demoSnap 0 "q" 10 demoFilters1 matchAllFuse
      (by decide) (by decide),
   filteredLruPolicy.2.2 demoHitKwState demoSnap 0 "q" 10 demoFilters1 matchAllFuse
      demoEntry (by decide) (by decide) rfl (by decide)⟩

/-! ### The keyword path of the hybrid route versus the cached index -/

/-- Identifier list of a search outcome. -/
def routeIds (r : Except String (SearchResponse × List Eff)) : List String :=
  match r with
  | Except.ok p => p.1.results.map MergedItem.id
  | Except.error _ => []

/-- Effect trace of a search outcome. -/
def routeTrace (r : Except String (SearchResponse × List Eff)) : List Eff :=
  match r with
  | Except.ok p => p.2
  | Except.error _ => []

/-- A store of 51 published creators `c0 … c50`. -/
def wideStore : List Doc :=
  (List.range 51).map (fun n => { blankDoc with id := "c" ++ Nat.repr n, name := "Creator" })

/-- A Fuse behaviour over route documents matching exactly the creator `c50`. -/
def matchOnly50Doc : FuseDocFn :=
  fun docs _ => (docs.filter (fun d => d.id = "c50")).map (fun d => (d, none))

/-- The same Fuse behaviour over cached creators. -/
def matchOnly50 : FuseFn :=
  fun docs _ => (docs.filter (fun c => c.id = "c50")).map (fun c => (c, none))

/-- C3 (evaluation): on a store of 51 published creators where the query
matches only `c50`, the hybrid route's keyword branch — a direct store query
capped at 50 documents feeding the one-off legacy index — returns nothing and
its trace is exactly that one store query (it never consults the
CreatorCache/KeywordIndex tier); `c50` is missing from its candidate list even
though the CreatorCache snapshot holds it and `keywordSearchCached` over the
same store returns it. -/
theorem keywordPathBypassesCache :
    routeIds (hybridSearchRoute Mode.keyword "creator" 50 1 noFilters
      (Except.ok []) (fun _ _ => Except.ok []) wideStore matchOnly50Doc) = [] ∧
    routeTrace (hybridSearchRoute Mode.keyword "creator" 50 1 noFilters
      (Except.ok []) (fun _ _ => Except.ok []) wideStore matchOnly50Doc) =
      [Eff.storeQuery (some 50)] ∧
    "c50" ∉ (keywordCandidates wideStore noFilters).map Doc.id ∧
    "c50" ∈ (loadFromFirestore wideStore).map CachedCreator.id ∧
    ((keywordSearchCached initCacheState initKwState 0 "creator" 50 noFilters none
      wideStore (Except.ok ()) none matchOnly50).1.map KwRes.id = ["c50"]) := by
  exact ⟨by decide, by decide, by decide, by decide, by decide⟩

end LammaApi
